import Mathlib

/-!
Shallow embedding of the drastic-idle phase engine (src/drastic-idle.c).

C `unsigned long` values (millisecond durations and timestamps) are modelled
as `Nat` with the arithmetic the source performs: every subtraction in the
source is guarded by a comparison, so truncated `Nat` subtraction coincides
with the C unsigned subtraction, and every sum or product that a C
`unsigned long` would wrap carries an explicit `% 2^64`: the snooze arming
`now + auto_snooze_ms` in `run_phases` (`auto_snooze_ms` comes from the
parser and can sit near 2^64), and the stores of `parse_args`.

The side effect `close_active_window` is modelled as a boolean field of the
result (`closed_window`): the engine calls it at most once per tick, on the
phase-1 edge, exactly as the source does.
-/

namespace DrasticIdle

/-- Modulus of a 64-bit C unsigned long: every unguarded unsigned sum or
product in the source is reduced by it. -/
def UL_MOD : Nat := 2 ^ 64

/-- Configuration record, `config_t` in the source: thresholds and snooze
duration in milliseconds, poll interval in seconds. -/
structure Config where
  phase1_ms : Nat
  phase2_ms : Nat
  auto_snooze_ms : Nat
  poll_s : Nat
deriving DecidableEq, Repr

/-- Mutable engine state threaded through the poll loop in `main`:
the locals `phase1_done` and `snoozed_until` passed to `run_phases` by
pointer. -/
structure EngineState where
  phase1_done : Bool
  snoozed_until : Nat
deriving DecidableEq, Repr

/-- Result of one `run_phases` call: the C return value (`1` = poweroff,
`0` = continue), the state after the call, and whether
`close_active_window` was invoked during the call. -/
structure PhaseResult where
  ret : Nat
  state : EngineState
  closed_window : Bool
deriving DecidableEq, Repr

/-- Embedding of `run_phases` (src/drastic-idle.c lines 101-115), branch for
branch and in source order: episode reset when `idle < phase1_ms`, then the
snooze gate, then the terminal check, then the phase-1 edge.  The snooze
arming is the C unsigned long sum, so it wraps modulo 2^64. -/
def run_phases (c : Config) (idle now : Nat) (s : EngineState) : PhaseResult :=
  let s1 : EngineState := if idle < c.phase1_ms then ⟨false, 0⟩ else s
  if now < s1.snoozed_until then ⟨0, s1, false⟩
  else if c.phase2_ms ≤ idle then ⟨1, s1, false⟩
  else if c.phase1_ms ≤ idle ∧ s1.phase1_done = false then
    ⟨0, ⟨true, (now + c.auto_snooze_ms) % UL_MOD⟩, true⟩
  else ⟨0, s1, false⟩

/-- Initial engine state set up in `main` before the loop:
`phase1_done = 0`, `snoozed_until = 0`. -/
def init_state : EngineState := ⟨false, 0⟩

section BranchLemmas

variable (c : Config) (s : EngineState) (idle now : Nat)

/-- Reset branch: `idle < phase1_ms < phase2_ms` clears both fields, invokes
nothing and returns 0. -/
lemma run_phases_low (h1 : idle < c.phase1_ms) (h2 : idle < c.phase2_ms) :
    run_phases c idle now s = ⟨0, ⟨false, 0⟩, false⟩ := by
  simp only [run_phases, if_pos h1]
  rw [if_neg (by simp), if_neg (by omega)]
  rw [if_neg (by simp; omega)]

/-- Reset branch, state only: whenever `idle < phase1_ms` the state after
the call is the cleared state, whatever the return value. -/
lemma run_phases_low_state (h1 : idle < c.phase1_ms) :
    (run_phases c idle now s).state = ⟨false, 0⟩ := by
  simp only [run_phases, if_pos h1]
  rw [if_neg (by simp)]
  split_ifs with h2 h3
  · rfl
  · exact absurd h3.1 (by omega)
  · rfl

/-- Snooze gate: with no reset and `now < snoozed_until`, the call returns 0,
leaves the state alone and invokes nothing. -/
lemma run_phases_snoozed (h1 : c.phase1_ms ≤ idle) (hg : now < s.snoozed_until) :
    run_phases c idle now s = ⟨0, s, false⟩ := by
  simp only [run_phases, if_neg (by omega : ¬ idle < c.phase1_ms)]
  rw [if_pos hg]

/-- Terminal branch: past the gate with `idle ≥ phase2_ms`, the call returns 1
with the state unchanged and nothing invoked. -/
lemma run_phases_term (h1 : c.phase1_ms ≤ idle) (hg : s.snoozed_until ≤ now)
    (h2 : c.phase2_ms ≤ idle) :
    run_phases c idle now s = ⟨1, s, false⟩ := by
  simp only [run_phases, if_neg (by omega : ¬ idle < c.phase1_ms)]
  rw [if_neg (by omega), if_pos h2]

/-- Phase-1 edge: past the gate, below `phase2_ms`, at or past `phase1_ms`
with `phase1_done` still false, the window is closed, the state becomes
`(true, (now + auto_snooze_ms) mod 2^64)` and 0 is returned. -/
lemma run_phases_fire (h1 : c.phase1_ms ≤ idle) (hg : s.snoozed_until ≤ now)
    (h2 : idle < c.phase2_ms) (hd : s.phase1_done = false) :
    run_phases c idle now s = ⟨0, ⟨true, (now + c.auto_snooze_ms) % UL_MOD⟩, true⟩ := by
  simp only [run_phases, if_neg (by omega : ¬ idle < c.phase1_ms)]
  rw [if_neg (by omega), if_neg (by omega), if_pos ⟨h1, hd⟩]

/-- Quiet branch: past the gate, below `phase2_ms`, with `phase1_done`
already true, nothing happens. -/
lemma run_phases_done (h1 : c.phase1_ms ≤ idle) (hg : s.snoozed_until ≤ now)
    (h2 : idle < c.phase2_ms) (hd : s.phase1_done = true) :
    run_phases c idle now s = ⟨0, s, false⟩ := by
  simp only [run_phases, if_neg (by omega : ¬ idle < c.phase1_ms)]
  rw [if_neg (by omega), if_neg (by omega), if_neg (by simp [hd])]

/-- Inversion: a return value of 1 forces the terminal branch, so the state
was not touched and the entry state satisfied the gate. -/
lemma run_phases_ret1_inv (h : c.phase1_ms < c.phase2_ms)
    (hr : (run_phases c idle now s).ret = 1) :
    c.phase2_ms ≤ idle ∧ s.snoozed_until ≤ now ∧
      run_phases c idle now s = ⟨1, s, false⟩ := by
  by_cases h1 : idle < c.phase1_ms
  · rw [run_phases_low c s idle now h1 (by omega)] at hr
    exact absurd hr (by simp)
  · by_cases hg : now < s.snoozed_until
    · rw [run_phases_snoozed c s idle now (by omega) hg] at hr
      exact absurd hr (by simp)
    · by_cases h2 : c.phase2_ms ≤ idle
      · exact ⟨h2, by omega, run_phases_term c s idle now (by omega) (by omega) h2⟩
      · by_cases hd : s.phase1_done = false
        · rw [run_phases_fire c s idle now (by omega) (by omega) (by omega) hd] at hr
          exact absurd hr (by simp)
        · rw [run_phases_done c s idle now (by omega) (by omega) (by omega)
            (by revert hd; cases s.phase1_done <;> simp)] at hr
          exact absurd hr (by simp)

end BranchLemmas

/-- Claim C1: for every configuration with `phase1_ms < phase2_ms` and every
prior state, including an active snooze with `now < snoozed_until`, a call of
`run_phases` with `idle < phase1_ms` clears `phase1_done` and
`snoozed_until`, invokes no action, and returns 0: the reset precedes the
snooze gate. -/
theorem c1_reset_wins (c : Config) (h : c.phase1_ms < c.phase2_ms)
    (s : EngineState) (idle now : Nat) (hidle : idle < c.phase1_ms) :
    run_phases c idle now s = ⟨0, ⟨false, 0⟩, false⟩ :=
  run_phases_low c s idle now hidle (by omega)

/-- Witness for C1 at a concrete snoozed state. -/
theorem c1_reset_wins_w :
    run_phases ⟨1000, 5000, 2000, 2⟩ 200 10 ⟨true, 900⟩ = ⟨0, ⟨false, 0⟩, false⟩ :=
  c1_reset_wins ⟨1000, 5000, 2000, 2⟩ (by decide) ⟨true, 900⟩ 200 10 (by decide)

/-- Claim C2: `run_phases` returns 1 (Terminate) exactly when
`idle ≥ phase2_ms` and `now ≥ snoozed_until`; in particular an active snooze
(`now < snoozed_until`) yields return 0 and no window close even when
`idle ≥ phase2_ms`. -/
theorem c2_terminate_iff (c : Config) (h : c.phase1_ms < c.phase2_ms)
    (s : EngineState) (idle now : Nat) :
    ((run_phases c idle now s).ret = 1 ↔
      c.phase2_ms ≤ idle ∧ s.snoozed_until ≤ now) ∧
    (now < s.snoozed_until → (run_phases c idle now s).ret = 0 ∧
      (run_phases c idle now s).closed_window = false) := by
  constructor
  · constructor
    · intro hr
      obtain ⟨ha, hb, _⟩ := run_phases_ret1_inv c s idle now h hr
      exact ⟨ha, hb⟩
    · rintro ⟨h2, hg⟩
      rw [run_phases_term c s idle now (by omega) hg h2]
  · intro hg
    by_cases h1 : idle < c.phase1_ms
    · rw [run_phases_low c s idle now h1 (by omega)]
      exact ⟨rfl, rfl⟩
    · rw [run_phases_snoozed c s idle now (by omega) hg]
      exact ⟨rfl, rfl⟩

/-- Witness for C2: a snoozed state suppresses termination at idle past
phase 2, and the same state past the snooze terminates. -/
theorem c2_terminate_iff_w :
    (run_phases ⟨1000, 5000, 2000, 2⟩ 6000 10 ⟨true, 50⟩).ret = 0 ∧
    (run_phases ⟨1000, 5000, 2000, 2⟩ 6000 60 ⟨true, 50⟩).ret = 1 :=
  ⟨((c2_terminate_iff ⟨1000, 5000, 2000, 2⟩ (by decide) ⟨true, 50⟩ 6000 10).2
      (by decide)).1,
   ((c2_terminate_iff ⟨1000, 5000, 2000, 2⟩ (by decide) ⟨true, 50⟩ 6000 60).1).mpr
      ⟨by decide, by decide⟩⟩

/-- Counterexample to C3 as stated: with the reachable configuration
`auto_snooze_ms = 2^64 - 1000`, the phase-1 edge at `now = 2000` stores the
wrapped unsigned long sum 1000, not the mathematical sum
`now + auto_snooze_ms`. -/
theorem c3_unbounded_sum_cex :
    (run_phases ⟨1000, 5000, 2 ^ 64 - 1000, 2⟩ 1200 2000
        ⟨false, 0⟩).state.snoozed_until ≠ 2000 + (2 ^ 64 - 1000) := by
  decide

/-- Claim C3 (amended: the armed value is the C unsigned long sum, so it is
`(now + auto_snooze_ms) mod 2^64`): in `[phase1_ms, phase2_ms)` with
`phase1_done = false` and the snooze expired, the call closes the active
window exactly once, sets `phase1_done`, arms
`snoozed_until = (now + auto_snooze_ms) mod 2^64` and returns 0. -/
theorem c3_phase1_fires (c : Config) (_h : c.phase1_ms < c.phase2_ms)
    (s : EngineState) (idle now : Nat)
    (h1 : c.phase1_ms ≤ idle) (h2 : idle < c.phase2_ms)
    (hd : s.phase1_done = false) (hs : s.snoozed_until ≤ now) :
    run_phases c idle now s =
      ⟨0, ⟨true, (now + c.auto_snooze_ms) % UL_MOD⟩, true⟩ :=
  run_phases_fire c s idle now h1 hs h2 hd

/-- Witness for C3 at the defaults scaled down. -/
theorem c3_phase1_fires_w :
    run_phases ⟨1000, 5000, 2000, 2⟩ 1200 7 ⟨false, 0⟩ = ⟨0, ⟨true, 2007⟩, true⟩ :=
  c3_phase1_fires ⟨1000, 5000, 2000, 2⟩ (by decide) ⟨false, 0⟩ 1200 7
    (by decide) (by decide) (by decide) (by decide)

/-- Counterexample to C4 as stated: after a reset, the re-fire at
`now = 2000` under the reachable configuration
`auto_snooze_ms = 2^64 - 1000` stores the wrapped unsigned long sum, so the
result is not the state armed with the mathematical sum. -/
theorem c4_unbounded_sum_cex :
    run_phases ⟨1000, 5000, 2 ^ 64 - 1000, 2⟩ 1000 2000
        (run_phases ⟨1000, 5000, 2 ^ 64 - 1000, 2⟩ 200 100 ⟨true, 50⟩).state ≠
      ⟨0, ⟨true, 2000 + (2 ^ 64 - 1000)⟩, true⟩ := by
  decide

/-- Claim C4 (amended: the re-armed snooze is the C unsigned long sum
`(now + auto_snooze_ms) mod 2^64`): once `phase1_done` is true, every
further call with idle still in `[phase1_ms, phase2_ms)` leaves the state
unchanged, closes nothing and returns 0, at any `now`; and after a reset
tick with `idle < phase1_ms`, a following tick back in
`[phase1_ms, phase2_ms)` fires phase 1 again. -/
theorem c4_fire_once_per_episode (c : Config) (_h : c.phase1_ms < c.phase2_ms)
    (s : EngineState) (idle now : Nat)
    (hd : s.phase1_done = true) (h1 : c.phase1_ms ≤ idle) (h2 : idle < c.phase2_ms) :
    run_phases c idle now s = ⟨0, s, false⟩ ∧
    (∀ idle_r now_r idle_f now_f, idle_r < c.phase1_ms →
      c.phase1_ms ≤ idle_f → idle_f < c.phase2_ms →
      run_phases c idle_f now_f (run_phases c idle_r now_r s).state =
        ⟨0, ⟨true, (now_f + c.auto_snooze_ms) % UL_MOD⟩, true⟩) := by
  constructor
  · by_cases hg : now < s.snoozed_until
    · exact run_phases_snoozed c s idle now h1 hg
    · exact run_phases_done c s idle now h1 (by omega) h2 hd
  · intro idle_r now_r idle_f now_f hr hf1 hf2
    rw [run_phases_low_state c s idle_r now_r hr]
    exact run_phases_fire c ⟨false, 0⟩ idle_f now_f hf1 (by simp) hf2 rfl

/-- Witness for C4: no re-fire on a repeated tick, and re-fire after a
reset. -/
theorem c4_fire_once_per_episode_w :
    run_phases ⟨1000, 5000, 2000, 2⟩ 1500 8 ⟨true, 2007⟩ = ⟨0, ⟨true, 2007⟩, false⟩ ∧
    run_phases ⟨1000, 5000, 2000, 2⟩ 1000 9000
      (run_phases ⟨1000, 5000, 2000, 2⟩ 200 8000 ⟨true, 2007⟩).state =
      ⟨0, ⟨true, 11000⟩, true⟩ :=
  ⟨(c4_fire_once_per_episode ⟨1000, 5000, 2000, 2⟩ (by decide) ⟨true, 2007⟩ 1500 8
      (by decide) (by decide) (by decide)).1,
   (c4_fire_once_per_episode ⟨1000, 5000, 2000, 2⟩ (by decide) ⟨true, 2007⟩ 1500 8
      (by decide) (by decide) (by decide)).2 200 8000 1000 9000
      (by decide) (by decide) (by decide)⟩

/-- Claim C5: Scenario A with thresholds 1000 ms and 5000 ms and a 2000 ms
auto-snooze, from the initial state: idle 500 gives no action; idle 1000 at
time t fires phase 1 and arms the snooze to t + 2000; idle 1500 at t + 500
is suppressed by the snooze; idle 6000 at t + 2100 terminates.  The firing
tick stores the unsigned long sum, so t + 2000 is required to fit in 64
bits, as every monotonic-clock timestamp does. -/
theorem c5_scenario_a (t0 t : Nat) (ht : t + 2000 < UL_MOD) :
    run_phases ⟨1000, 5000, 2000, 2⟩ 500 t0 init_state = ⟨0, ⟨false, 0⟩, false⟩ ∧
    run_phases ⟨1000, 5000, 2000, 2⟩ 1000 t ⟨false, 0⟩ =
      ⟨0, ⟨true, t + 2000⟩, true⟩ ∧
    run_phases ⟨1000, 5000, 2000, 2⟩ 1500 (t + 500) ⟨true, t + 2000⟩ =
      ⟨0, ⟨true, t + 2000⟩, false⟩ ∧
    run_phases ⟨1000, 5000, 2000, 2⟩ 6000 (t + 2100) ⟨true, t + 2000⟩ =
      ⟨1, ⟨true, t + 2000⟩, false⟩ := by
  refine ⟨?_, ?_, ?_, ?_⟩
  · exact run_phases_low _ init_state 500 t0 (by decide) (by decide)
  · rw [run_phases_fire _ ⟨false, 0⟩ 1000 t (by decide) (by simp) (by decide) rfl]
    rw [Nat.mod_eq_of_lt ht]
  · exact run_phases_snoozed _ ⟨true, t + 2000⟩ 1500 (t + 500) (by decide)
      (by show t + 500 < t + 2000; omega)
  · exact run_phases_term _ ⟨true, t + 2000⟩ 6000 (t + 2100) (by decide)
      (by show t + 2000 ≤ t + 2100; omega) (by decide)

/-- Witness for C5 at base time 100. -/
theorem c5_scenario_a_w :
    run_phases ⟨1000, 5000, 2000, 2⟩ 1000 100 ⟨false, 0⟩ =
      ⟨0, ⟨true, 2100⟩, true⟩ ∧
    run_phases ⟨1000, 5000, 2000, 2⟩ 6000 2200 ⟨true, 2100⟩ =
      ⟨1, ⟨true, 2100⟩, false⟩ :=
  ⟨(c5_scenario_a 0 100 (by decide)).2.1, (c5_scenario_a 0 100 (by decide)).2.2.2⟩

/-- Claim C7: a call that returns the Terminate decision leaves both state
fields exactly as they were on entry and closes no window, so a later tick
with the same idle and any later now returns the Terminate decision again. -/
theorem c7_terminate_frame (c : Config) (h : c.phase1_ms < c.phase2_ms)
    (s : EngineState) (idle now : Nat)
    (hr : (run_phases c idle now s).ret = 1) :
    (run_phases c idle now s).state = s ∧
    (run_phases c idle now s).closed_window = false ∧
    (∀ now2, now ≤ now2 → (run_phases c idle now2 s).ret = 1) := by
  obtain ⟨h2, hg, he⟩ := run_phases_ret1_inv c s idle now h hr
  refine ⟨by rw [he], by rw [he], ?_⟩
  intro now2 hle
  rw [run_phases_term c s idle now2 (by omega) (by omega) h2]

/-- Witness for C7: Terminate with a stale snooze value in the state, redone
100 ms later. -/
theorem c7_terminate_frame_w :
    (run_phases ⟨1000, 5000, 2000, 2⟩ 6000 10 ⟨true, 7⟩).state = ⟨true, 7⟩ ∧
    (run_phases ⟨1000, 5000, 2000, 2⟩ 6000 110 ⟨true, 7⟩).ret = 1 :=
  ⟨(c7_terminate_frame ⟨1000, 5000, 2000, 2⟩ (by decide) ⟨true, 7⟩ 6000 10
      (by decide)).1,
   (c7_terminate_frame ⟨1000, 5000, 2000, 2⟩ (by decide) ⟨true, 7⟩ 6000 10
      (by decide)).2.2 110 (by decide)⟩

/-- The implicit snooze invariant of the engine: a non-zero `snoozed_until`
implies phase 1 has fired in the current episode. -/
def snooze_inv (s : EngineState) : Prop :=
  s.snoozed_until ≠ 0 → s.phase1_done = true

/-- States reachable by the poll loop of `main`: the initial state, closed
under `run_phases` steps with arbitrary samples. -/
inductive Reachable (c : Config) : EngineState → Prop
  | init : Reachable c init_state
  | step (s : EngineState) (idle now : Nat) :
      Reachable c s → Reachable c (run_phases c idle now s).state

/-- One step preserves the snooze invariant: the state after any call is
the cleared state, the entry state, or a fired state with
`phase1_done = true`. -/
lemma run_phases_preserves_snooze_inv (c : Config) (s : EngineState)
    (idle now : Nat) (hs : snooze_inv s) :
    snooze_inv (run_phases c idle now s).state := by
  by_cases h1 : idle < c.phase1_ms
  · rw [run_phases_low_state c s idle now h1]
    intro h
    exact absurd rfl h
  · by_cases hg : now < s.snoozed_until
    · rw [run_phases_snoozed c s idle now (by omega) hg]
      exact hs
    · by_cases h2 : c.phase2_ms ≤ idle
      · rw [run_phases_term c s idle now (by omega) (by omega) h2]
        exact hs
      · by_cases hd : s.phase1_done = false
        · rw [run_phases_fire c s idle now (by omega) (by omega) (by omega) hd]
          intro _
          rfl
        · rw [run_phases_done c s idle now (by omega) (by omega) (by omega)
            (by revert hd; cases s.phase1_done <;> simp)]
          exact hs

/-- Claim C9: starting from the initial state, every state the loop can
reach satisfies the invariant that a non-zero `snoozed_until` implies
`phase1_done = true`: only the phase-1 edge arms the snooze and it sets
`phase1_done` in the same call, while the reset clears both together. -/
theorem c9_snooze_invariant (c : Config) (s : EngineState)
    (hr : Reachable c s) : snooze_inv s := by
  induction hr with
  | init =>
      intro h
      exact absurd rfl h
  | step s idle now _ ih => exact run_phases_preserves_snooze_inv c s idle now ih

/-- Witness for C9 at the state reached by one firing step. -/
theorem c9_snooze_invariant_w :
    ((run_phases ⟨1000, 5000, 2000, 2⟩ 1000 5 init_state).state).phase1_done = true :=
  c9_snooze_invariant ⟨1000, 5000, 2000, 2⟩ _
    (Reachable.step init_state 1000 5 Reachable.init) (by decide)

/-- Claim C10: with `auto_snooze_ms = 0`, which `--auto-snooze 0` yields,
the phase-1 edge arms `snoozed_until = now` (for `now` in the unsigned long
range, as every clock value is), so the gate (which needs a strictly
earlier clock) suppresses no call at any time at or past `now`; in
particular a tick at the same `now` with `idle ≥ phase2_ms` already returns
Terminate. -/
theorem c10_zero_snooze (c : Config) (_h : c.phase1_ms < c.phase2_ms)
    (h0 : c.auto_snooze_ms = 0) (s : EngineState) (idle now : Nat)
    (hn : now < UL_MOD)
    (h1 : c.phase1_ms ≤ idle) (h2 : idle < c.phase2_ms)
    (hd : s.phase1_done = false) (hs : s.snoozed_until ≤ now) :
    (run_phases c idle now s).state.snoozed_until = now ∧
    (∀ now2, now ≤ now2 → ¬ now2 < (run_phases c idle now s).state.snoozed_until) ∧
    (∀ idle2, c.phase2_ms ≤ idle2 →
      (run_phases c idle2 now (run_phases c idle now s).state).ret = 1) := by
  rw [run_phases_fire c s idle now h1 hs h2 hd, h0]
  have harm : (now + 0) % UL_MOD = now := by
    rw [Nat.add_zero]
    exact Nat.mod_eq_of_lt hn
  refine ⟨harm, ?_, ?_⟩
  · intro now2 hle
    show ¬ now2 < (now + 0) % UL_MOD
    rw [harm]
    omega
  · intro idle2 hi2
    show (run_phases c idle2 now ⟨true, (now + 0) % UL_MOD⟩).ret = 1
    rw [run_phases_term c ⟨true, (now + 0) % UL_MOD⟩ idle2 now (by omega)
      (by show (now + 0) % UL_MOD ≤ now; rw [harm]) hi2]

/-- Witness for C10: zero snooze, fire at now = 40, terminate at the same
instant. -/
theorem c10_zero_snooze_w :
    (run_phases ⟨1000, 5000, 0, 2⟩ 1000 40 init_state).state.snoozed_until = 40 ∧
    (run_phases ⟨1000, 5000, 0, 2⟩ 9999 40
      (run_phases ⟨1000, 5000, 0, 2⟩ 1000 40 init_state).state).ret = 1 :=
  ⟨(c10_zero_snooze ⟨1000, 5000, 0, 2⟩ (by decide) rfl init_state 1000 40
      (by decide) (by decide) (by decide) rfl (by decide)).1,
   (c10_zero_snooze ⟨1000, 5000, 0, 2⟩ (by decide) rfl init_state 1000 40
      (by decide) (by decide) (by decide) rfl (by decide)).2.2 9999 (by decide)⟩

/-- Remaining snooze in milliseconds as computed by `format_timer`
(line 60 of the source): `(snoozed_until > now) ? (snoozed_until - now) : 0`. -/
def rem_snooze_ms (snoozed_until now : Nat) : Nat :=
  if snoozed_until > now then snoozed_until - now else 0

/-- Remaining time to phase 2 in milliseconds as computed by `format_timer`
(line 68): `idle >= phase2_ms ? 0 : phase2_ms - idle`. -/
def p2_rem_ms (c : Config) (idle : Nat) : Nat :=
  if idle ≥ c.phase2_ms then 0 else c.phase2_ms - idle

/-- The semantic content of the status line `format_timer` renders: the
numeric fields handed to each of the three `snprintf` calls, branch for
branch. -/
inductive TimerLine
  | snoozed (rmin rsec rtenths : Nat)
  | phase_line (imin isec itenths : Nat) (p1_done : Bool) (omin osec otenths : Nat)
  | countdown_line (imin isec itenths p1s p1tenths omin osec otenths : Nat)
deriving DecidableEq, Repr

/-- Does the line come from the third `snprintf` of `format_timer`, the one
that shows a countdown to phase 1? -/
def TimerLine.shows_p1_countdown : TimerLine → Bool
  | .countdown_line _ _ _ _ _ _ _ _ => true
  | _ => false

/-- Embedding of `format_timer` (src/drastic-idle.c lines 58-82): the
snoozed line when the remaining snooze is non-zero, otherwise the idle line,
with the countdown-to-phase-1 form only when `phase1_done` is false and
`idle < phase1_ms`. -/
def format_timer (c : Config) (idle snoozed_until : Nat) (phase1_done : Bool)
    (now : Nat) : TimerLine :=
  let rem_ms := rem_snooze_ms snoozed_until now
  if rem_ms ≠ 0 then
    let rem_s := rem_ms / 1000
    .snoozed (rem_s / 60) (rem_s % 60) ((rem_ms % 1000) / 100)
  else
    let idle_s := idle / 1000
    let idle_t := (idle % 1000) / 100
    let p2_ms := p2_rem_ms c idle
    let p2_sec := p2_ms / 1000
    let p2_t := (p2_ms % 1000) / 100
    if phase1_done = true ∨ idle ≥ c.phase1_ms then
      .phase_line (idle_s / 60) (idle_s % 60) idle_t phase1_done
        (p2_sec / 60) (p2_sec % 60) p2_t
    else
      let p1_ms := c.phase1_ms - idle
      .countdown_line (idle_s / 60) (idle_s % 60) idle_t
        (p1_ms / 1000) ((p1_ms % 1000) / 100) (p2_sec / 60) (p2_sec % 60) p2_t

/-- Claim C8: every duration difference in the display is clamped at zero:
the remaining snooze equals max 0 (snoozed_until - now) over the integers,
the remaining time to phase 2 equals max 0 (phase2_ms - idle), and the
countdown line is only produced when `idle < phase1_ms`, where
`phase1_ms - idle` cannot underflow. -/
theorem c8_display_clamped (c : Config) (idle snoozed_until now : Nat)
    (phase1_done : Bool) :
    ((rem_snooze_ms snoozed_until now : Int) =
      max 0 ((snoozed_until : Int) - (now : Int))) ∧
    ((p2_rem_ms c idle : Int) = max 0 ((c.phase2_ms : Int) - (idle : Int))) ∧
    ((format_timer c idle snoozed_until phase1_done now).shows_p1_countdown = true →
      idle < c.phase1_ms ∧
        ((c.phase1_ms - idle : Nat) : Int) = (c.phase1_ms : Int) - (idle : Int)) := by
  refine ⟨?_, ?_, ?_⟩
  · rw [rem_snooze_ms]
    split_ifs with hgt
    · omega
    · omega
  · rw [p2_rem_ms]
    split_ifs with hge
    · omega
    · omega
  · intro hline
    rw [format_timer] at hline
    split_ifs at hline with hrem hbr
    · exact absurd hline (by simp [TimerLine.shows_p1_countdown])
    · exact absurd hline (by simp [TimerLine.shows_p1_countdown])
    · push_neg at hbr
      refine ⟨by omega, by omega⟩

/-- Witness for C8: the countdown line at idle 300 of a 1000 ms phase-1
threshold. -/
theorem c8_display_clamped_w :
    (300 : Nat) < (1000 : Nat) ∧
      (((1000 : Nat) - (300 : Nat) : Nat) : Int) = (1000 : Int) - (300 : Int) :=
  (c8_display_clamped ⟨1000, 5000, 2000, 2⟩ 300 0 50 false).2.2 (by decide)

/-- Largest C unsigned long value, which strtoul returns on overflow. -/
def ULONG_MAX : Nat := 2 ^ 64 - 1

/-- The characters C isspace accepts in the default locale. -/
def is_c_space (ch : Char) : Bool :=
  ch == ' ' || ch == '\t' || ch == '\n' || ch == '\x0b' || ch == '\x0c' || ch == '\r'

/-- Leading-whitespace skip performed by strtoul. -/
def skip_isspace : List Char → List Char
  | [] => []
  | ch :: cs => if is_c_space ch then skip_isspace cs else ch :: cs

/-- Consume a run of decimal digits: accumulated value, number of digits
consumed, unconsumed suffix. -/
def take_digits : List Char → Nat → Nat → Nat × Nat × List Char
  | [], acc, n => (acc, n, [])
  | ch :: cs, acc, n =>
    if ch.isDigit then take_digits cs (acc * 10 + (ch.toNat - 48)) (n + 1)
    else (acc, n, ch :: cs)

/-- Model of C strtoul(s, and end, 10): optional whitespace, optional sign,
digits; returns the value and the unconsumed suffix that end points at.
If no digit is consumed, end stays at the start of the string and the value
is 0; on overflow the value clamps to ULONG_MAX; a minus sign negates
modulo 2^64. -/
def strtoul10 (s : String) : Nat × String :=
  let cs0 := skip_isspace s.data
  let signed : Bool × List Char :=
    match cs0 with
    | '-' :: r => (true, r)
    | '+' :: r => (false, r)
    | _ => (false, cs0)
  let parsed := take_digits signed.2 0 0
  if parsed.2.1 = 0 then (0, s)
  else
    let vc := if parsed.1 > ULONG_MAX then ULONG_MAX else parsed.1
    (if signed.1 then (UL_MOD - vc) % UL_MOD else vc, String.mk parsed.2.2)

/-- One recognized command-line option with its argument, the data
getopt_long hands the switch in parse_args: unknown covers any option
getopt rejects (its default case). -/
inductive ArgTok
  | phase1 (optarg : String)
  | phase2 (optarg : String)
  | auto_snooze (optarg : String)
  | poll (optarg : String)
  | help
  | unknown
deriving DecidableEq, Repr

/-- Outcome of parse_args: a config (return 0), an error printed to stderr
with return -1, or the help path that prints usage and exits 0. -/
inductive ParseOutcome
  | ok (c : Config)
  | err
  | help_exit
deriving DecidableEq, Repr

/-- The defaults parse_args installs before reading options
(lines 137-140 of the source). -/
def default_config : Config := ⟨10000, 300000, 60000, 2⟩

/-- Embedding of parse_args (src/drastic-idle.c lines 136-171) over the
option stream: each numeric option is read with strtoul, rejected when a
suffix remains or, for phase1, phase2 and poll, when the value is zero;
values are stored scaled to milliseconds with 64-bit wraparound; after the
stream, a phase1 threshold at or above the phase2 threshold is rejected. -/
def parse_args : List ArgTok → Config → ParseOutcome
  | [], c => if c.phase2_ms ≤ c.phase1_ms then .err else .ok c
  | t :: ts, c =>
    match t with
    | .phase1 s =>
      if (strtoul10 s).2 ≠ "" ∨ (strtoul10 s).1 = 0 then .err
      else parse_args ts { c with phase1_ms := (strtoul10 s).1 * 1000 % UL_MOD }
    | .phase2 s =>
      if (strtoul10 s).2 ≠ "" ∨ (strtoul10 s).1 = 0 then .err
      else parse_args ts { c with phase2_ms := (strtoul10 s).1 * 1000 % UL_MOD }
    | .auto_snooze s =>
      if (strtoul10 s).2 ≠ "" then .err
      else parse_args ts { c with auto_snooze_ms := (strtoul10 s).1 * 1000 % UL_MOD }
    | .poll s =>
      if (strtoul10 s).2 ≠ "" ∨ (strtoul10 s).1 = 0 then .err
      else parse_args ts { c with poll_s := (strtoul10 s).1 % 2 ^ 32 }
    | .help => .help_exit
    | .unknown => .err

/-- A numeric option value the claim calls invalid: a non-numeric string
for any of the four options, or zero for phase1, phase2 or poll. -/
def invalid_arg : ArgTok → Bool
  | .phase1 s => (strtoul10 s).2 != "" || (strtoul10 s).1 == 0
  | .phase2 s => (strtoul10 s).2 != "" || (strtoul10 s).1 == 0
  | .poll s => (strtoul10 s).2 != "" || (strtoul10 s).1 == 0
  | .auto_snooze s => (strtoul10 s).2 != ""
  | .help => false
  | .unknown => false

/-- Outcome of main before the poll loop (lines 173-175): a parse failure
or an unopenable display returns 1, help exits 0, otherwise the loop is
entered with the parsed config. -/
inductive StartupOutcome
  | exit_fail
  | help_ok
  | loop_entered (c : Config)
deriving DecidableEq, Repr

/-- Embedding of the startup path of main: parse, then open the display,
then enter the loop. -/
def main_startup (toks : List ArgTok) (display_ok : Bool) : StartupOutcome :=
  match parse_args toks default_config with
  | .err => .exit_fail
  | .help_exit => .help_ok
  | .ok c => if display_ok then .loop_entered c else .exit_fail

/-- An invalid option value anywhere in a help-free stream makes parse_args
fail, from any accumulated config. -/
lemma parse_args_bad (toks : List ArgTok) (t : ArgTok) (ht : t ∈ toks)
    (hbad : invalid_arg t = true) (hh : ArgTok.help ∉ toks) (c0 : Config) :
    parse_args toks c0 = .err := by
  induction toks generalizing c0 with
  | nil => exact absurd ht (List.not_mem_nil t)
  | cons hd tl ih =>
    have hh2 : ArgTok.help ∉ tl := fun he => hh (List.mem_cons_of_mem hd he)
    rcases List.mem_cons.mp ht with heq | htl
    · subst heq
      cases t with
      | phase1 s =>
        simp only [invalid_arg] at hbad
        simp only [parse_args]
        rw [if_pos (by simpa using hbad)]
      | phase2 s =>
        simp only [invalid_arg] at hbad
        simp only [parse_args]
        rw [if_pos (by simpa using hbad)]
      | auto_snooze s =>
        simp only [invalid_arg] at hbad
        simp only [parse_args]
        rw [if_pos (by simpa using hbad)]
      | poll s =>
        simp only [invalid_arg] at hbad
        simp only [parse_args]
        rw [if_pos (by simpa using hbad)]
      | help => exact absurd (List.mem_cons_self ArgTok.help tl) hh
      | unknown => rfl
    · cases hd with
      | phase1 s =>
        simp only [parse_args]
        split_ifs with hc
        · rfl
        · exact ih htl hh2 _
      | phase2 s =>
        simp only [parse_args]
        split_ifs with hc
        · rfl
        · exact ih htl hh2 _
      | auto_snooze s =>
        simp only [parse_args]
        split_ifs with hc
        · rfl
        · exact ih htl hh2 _
      | poll s =>
        simp only [parse_args]
        split_ifs with hc
        · rfl
        · exact ih htl hh2 _
      | help => exact absurd (List.mem_cons_self ArgTok.help tl) hh
      | unknown => rfl

/-- A config parse_args accepts always has phase1_ms strictly below
phase2_ms, whatever the option stream and starting config. -/
lemma parse_args_ok_ordered (toks : List ArgTok) (c0 cfg : Config)
    (h : parse_args toks c0 = .ok cfg) : cfg.phase1_ms < cfg.phase2_ms := by
  induction toks generalizing c0 with
  | nil =>
    simp only [parse_args] at h
    split_ifs at h with hord
    injection h with h2
    subst h2
    omega
  | cons hd tl ih =>
    cases hd <;> simp only [parse_args] at h
    case help => exact absurd h (by simp)
    case unknown => exact absurd h (by simp)
    all_goals
      split_ifs at h with hc
      exact ih _ h

/-- Without a help token, parse_args never takes the usage-and-exit-0
path. -/
lemma parse_args_no_help (toks : List ArgTok) (hh : ArgTok.help ∉ toks)
    (c0 : Config) : parse_args toks c0 ≠ .help_exit := by
  induction toks generalizing c0 with
  | nil =>
    simp only [parse_args]
    split_ifs <;> simp
  | cons hd tl ih =>
    have hhd : hd ≠ ArgTok.help := fun he => hh (he ▸ List.mem_cons_self hd tl)
    have htl : ArgTok.help ∉ tl := fun he => hh (List.mem_cons_of_mem hd he)
    cases hd <;> simp only [parse_args]
    case phase1 s => split_ifs with hc
                     · simp
                     · exact ih htl _
    case phase2 s => split_ifs with hc
                     · simp
                     · exact ih htl _
    case auto_snooze s => split_ifs with hc
                          · simp
                          · exact ih htl _
    case poll s => split_ifs with hc
                   · simp
                   · exact ih htl _
    case help => exact absurd rfl hhd
    case unknown => simp

/-- Claim C6: with no help flag in the option stream, any invalid numeric
value makes parse_args fail from any starting config; the parse otherwise
either fails or yields a config with phase1 strictly below phase2 (so the
misordering phase1 at or above phase2 is always rejected); and a parse
failure makes main exit with status 1 before the loop, display or not. -/
theorem c6_config_rejected (toks : List ArgTok) (hh : ArgTok.help ∉ toks) :
    ((∃ t ∈ toks, invalid_arg t = true) → ∀ c0, parse_args toks c0 = .err) ∧
    (parse_args toks default_config = .err ∨
      ∃ cfg, parse_args toks default_config = .ok cfg ∧
        cfg.phase1_ms < cfg.phase2_ms) ∧
    (parse_args toks default_config = .err →
      ∀ b, main_startup toks b = .exit_fail) := by
  refine ⟨?_, ?_, ?_⟩
  · rintro ⟨t, ht, hbad⟩ c0
    exact parse_args_bad toks t ht hbad hh c0
  · cases hp : parse_args toks default_config with
    | ok cfg => exact Or.inr ⟨cfg, rfl, parse_args_ok_ordered toks _ cfg hp⟩
    | err => exact Or.inl rfl
    | help_exit => exact absurd hp (parse_args_no_help toks hh _)
  · intro he b
    simp only [main_startup, he]

/-- Witness for C6: Scenario C, phase1 of 10 seconds against phase2 of 5
seconds, is rejected and main exits before the loop; a zero poll value is
also rejected. -/
theorem c6_config_rejected_w :
    parse_args [ArgTok.phase1 "10", ArgTok.phase2 "5"] default_config =
      ParseOutcome.err ∧
    main_startup [ArgTok.phase1 "10", ArgTok.phase2 "5"] true =
      StartupOutcome.exit_fail ∧
    parse_args [ArgTok.poll "0"] default_config = ParseOutcome.err := by
  have hsc := c6_config_rejected [ArgTok.phase1 "10", ArgTok.phase2 "5"]
    (by decide)
  have hz := c6_config_rejected [ArgTok.poll "0"] (by decide)
  have hperr : parse_args [ArgTok.phase1 "10", ArgTok.phase2 "5"]
      default_config = ParseOutcome.err := by decide
  exact ⟨hperr, hsc.2.2 hperr true,
    hz.1 ⟨ArgTok.poll "0", by decide, by decide⟩ default_config⟩

end DrasticIdle
